import Mathlib

/-!
stripehooks: webhook dispatch manager

A shallow embedding of `stripehooks.go` (package `stripehooks`) and the
properties of its dispatch logic.

Modelling conventions

* A Go `error` value is its message: `none` is the nil error, `some msg` an
  error whose `Error()` text is `msg`.  `fmt.Errorf("p: %v", err)` is
  therefore `"p: " ++ msg`.
* A Go func value is `none` (the nil func) or `some f`.  Calling the nil func
  is a run-time panic.
* Handlers and the error callback are closures with side effects.  Their
  effects act on a caller-owned world state `σ`, threaded explicitly.  In
  addition every handler invocation made by `ProcessEvent` is appended to a
  call log, so that "which handler ran, how often, on which event" is
  observable.
* The two library routines `webhook.ConstructEvent` and `json.Unmarshal`
  are not part of the package; they are taken as parameters (`Capabilities`).
* A panic raised inside a handler or inside the error callback itself is not
  modelled: a non-nil func value always returns.
-/

namespace Stripehooks

/-! ## Data model -/

/-- Byte slice (`[]byte`); every element stands for one byte value. -/
abbrev Bytes := List Nat

/-- Go `error`: `none` is nil, `some msg` carries the text of `Error()`. -/
abbrev GoError := Option String

/-- String-backed event type tag, the key of the handler map. -/
abbrev EventType := String

/-- Decoded vendor notification (`stripe.Event`): the type tag used for
dispatch (Go field `Type`) and the remaining fields, which this package
never inspects. -/
structure Event where
  Type_ : String
  Data : String
  deriving DecidableEq, Repr

/-- Message of the run-time panic raised by calling a nil func value. -/
def nilFuncPanic : String :=
  "runtime error: invalid memory address or nil pointer dereference"

/-- Handler func value `func(*stripe.Event) error`; `none` is the nil func.
A non-nil handler maps the event and the world state to the returned error
and the new world state. -/
abbrev HandlerFunc (σ : Type) := Option (Event → σ → GoError × σ)

/-- Go map `map[EventType]HandlerFunc`: `none` is the nil map, `some f` an
allocated map whose entry for `k` is `f k` (`none` when the key is absent). -/
abbrev HandlerMap (σ : Type) := Option (EventType → Option (HandlerFunc σ))

/-- Allocation `make(map[EventType]HandlerFunc)`: an allocated, empty map. -/
def makeMap (σ : Type) : HandlerMap σ := some (fun _ => none)

/-- Comma-ok map read `v, ok := m[k]`: `none` stands for `ok = false`.
Reading a nil map finds nothing. -/
def mapIndex {σ : Type} (hm : HandlerMap σ) (k : EventType) : Option (HandlerFunc σ) :=
  match hm with
  | none => none
  | some f => f k

/-- Manager is the struct that holds the event handlers. -/
structure Manager (σ : Type) where
  verify : Bool
  endpointSecret : String
  handlers : HandlerMap σ

/-- Go type `Option`, `func(*Manager)`: an update of the manager under
construction. -/
abbrev ManagerOption (σ : Type) := Manager σ → Manager σ

/-- One recorded handler invocation: the func that ran and its argument. -/
structure Call (σ : Type) where
  fn : Event → σ → GoError × σ
  event : Event

/-- How a call ended: it returned an `error` value, or it panicked. -/
inductive Ret where
  | returned (err : GoError)
  | panicked (msg : String)
  deriving DecidableEq, Repr

/-- Observable outcome of one `ProcessEvent` call. -/
structure Run (σ : Type) where
  ret : Ret
  world : σ
  calls : List (Call σ)

deriving instance DecidableEq for Except

/-- Library routines the package calls but does not define. -/
structure Capabilities where
  /-- Routine `webhook.ConstructEvent(payload, header, secret)`. -/
  ConstructEvent : Bytes → String → String → Except String Event
  /-- Routine `json.Unmarshal(payload, &event)`. -/
  Unmarshal : Bytes → Except String Event

/-! ## Construction and registration -/

/-- WithVerify sets the verify option.  The result is `.error msg` when the
call panics with `msg` and `.ok option` when it returns `option`. -/
def WithVerify {σ : Type} (endpointSecret : String) : Except String (ManagerOption σ) :=
  if endpointSecret = "" then
    .error "endpointSecret cannot be empty in WithVerify"
  else
    .ok (fun m => { m with verify := true, endpointSecret := endpointSecret })

/-- New returns a new Manager: the zero value with an allocated handler map,
updated by every option in order. -/
def New {σ : Type} (options : List (ManagerOption σ)) : Manager σ :=
  options.foldl (fun m option => option m)
    { verify := false, endpointSecret := "", handlers := makeMap σ }

/-- Handle registers a handler for the given event type. -/
def Manager.Handle {σ : Type} (m : Manager σ) (eventType : EventType) (fn : HandlerFunc σ) :
    Manager σ :=
  match m.handlers with
  | none =>
    { m with handlers := some (Function.update (fun _ => none) eventType (some fn)) }
  | some h =>
    { m with handlers := some (Function.update h eventType (some fn)) }

/-! ## Event processing -/

/-- ProcessEvent processes the event. -/
def Manager.ProcessEvent {σ : Type} (x : Capabilities) (m : Manager σ) (payload : Bytes)
    (signatureHeader : String) (s : σ) : Run σ :=
  let decoded : Except String Event :=
    if m.verify then
      match x.ConstructEvent payload signatureHeader m.endpointSecret with
      | .error err => .error ("error verifying webhook signature: " ++ err)
      | .ok event => .ok event
    else
      match x.Unmarshal payload with
      | .error err => .error ("error unmarshalling event: " ++ err)
      | .ok event => .ok event
  match decoded with
  | .error msg => ⟨.returned (some msg), s, []⟩
  | .ok event =>
    match mapIndex m.handlers event.Type_ with
    | none => ⟨.returned none, s, []⟩
    | some none => ⟨.panicked nilFuncPanic, s, []⟩
    | some (some fn) =>
      match fn event s with
      | (some err, s1) => ⟨.returned (some ("error handling event: " ++ err)), s1, [⟨fn, event⟩]⟩
      | (none, s1) => ⟨.returned none, s1, [⟨fn, event⟩]⟩

/-! ## HTTP adapter -/

/-- Status code `http.StatusOK`. -/
def StatusOK : Nat := 200

/-- Status code `http.StatusInternalServerError`. -/
def StatusInternalServerError : Nat := 500

/-- State of an `http.ResponseWriter`: the status line sent so far (`none`
until a header is written), the body bytes accepted so far, and the results
of the upcoming `Write` calls in order (`some err` makes that call fail;
past the end of the list every write succeeds). -/
structure ResponseWriter where
  status : Option Nat
  body : String
  failures : List GoError
  deriving DecidableEq, Repr

/-- Method `WriteHeader(code)`: the first call fixes the status, later calls
are ignored. -/
def ResponseWriter.WriteHeader (w : ResponseWriter) (code : Nat) : ResponseWriter :=
  match w.status with
  | none => { w with status := some code }
  | some _ => w

/-- Method `Write(data)`: sends the header with status 200 when none was sent
yet, then appends `data` to the body unless this write is scheduled to fail. -/
def ResponseWriter.Write (w : ResponseWriter) (data : String) : ResponseWriter × GoError :=
  let w1 := w.WriteHeader StatusOK
  match w1.failures with
  | [] => ({ w1 with body := w1.body ++ data }, none)
  | none :: rest => ({ w1 with body := w1.body ++ data, failures := rest }, none)
  | some err :: rest => ({ w1 with failures := rest }, some err)

/-- Result of the next `Write` call on a writer whose upcoming write results
are `failures`: nil when that write succeeds, the error when it fails. -/
def nextWrite (failures : List GoError) : GoError :=
  match failures with
  | some err :: _ => some err
  | _ => none

/-- Incoming `*http.Request`, as far as the adapter looks at it: the result of
`io.ReadAll(r.Body)` and the lookup `r.Header.Get`. -/
structure Request where
  Body : Except String Bytes
  Header : String → String

/-- Observable outcome of serving one request: the response writer, the text
printed to standard error, the world state, the handler calls made, and the
panic message when the request handler panicked. -/
structure Served (σ : Type) where
  w : ResponseWriter
  stderr : String
  world : σ
  calls : List (Call σ)
  panic : Option String

/-- Function httpErrorHandler handles the error and writes it to the response.
Returns the writer and the text printed to standard error. -/
def httpErrorHandler (w : ResponseWriter) (err : String) : ResponseWriter × String :=
  let w1 := w.WriteHeader StatusInternalServerError
  match w1.Write err with
  | (w2, some werr) => (w2, werr ++ "\n")
  | (w2, none) => (w2, "")

/-- Statement `errFn(err); return` inside the request handler: calling the nil
func panics, a non-nil callback acts on the world state. -/
def callErrFn {σ : Type} (errFn : Option (String → σ → σ)) (err : String) (w : ResponseWriter)
    (stderr : String) (s : σ) (calls : List (Call σ)) : Served σ :=
  match errFn with
  | none => ⟨w, stderr, s, calls, some nilFuncPanic⟩
  | some f => ⟨w, stderr, f err s, calls, none⟩

/-- HttpHandler returns an http.HandlerFunc. -/
def Manager.HttpHandler {σ : Type} (x : Capabilities) (m : Manager σ)
    (errFn : Option (String → σ → σ)) : ResponseWriter → Request → σ → Served σ :=
  let errFn : Option (String → σ → σ) :=
    if errFn.isSome then some (fun _ s => s) else errFn
  fun w r s =>
    match r.Body with
    | .error err =>
      let (w1, stderr) := httpErrorHandler w ("error reading request body: " ++ err)
      callErrFn errFn err w1 stderr s []
    | .ok payload =>
      let signatureHeader := r.Header "Stripe-Signature"
      match m.ProcessEvent x payload signatureHeader s with
      | ⟨.panicked msg, s1, calls⟩ => ⟨w, "", s1, calls, some msg⟩
      | ⟨.returned (some err), s1, calls⟩ =>
        let (w1, stderr) := httpErrorHandler w ("error processing event: " ++ err)
        callErrFn errFn err w1 stderr s1 calls
      | ⟨.returned none, s1, calls⟩ =>
        let w1 := w.WriteHeader StatusOK
        match w1.Write "OK" with
        | (w2, some err) =>
          let (w3, stderr) := httpErrorHandler w2 ("error writing response: " ++ err)
          callErrFn errFn err w3 stderr s1 calls
        | (w2, none) => ⟨w2, "", s1, calls, none⟩

/-! ## Sample values -/

/-- World state of the samples: a log of what handlers and callbacks saw. -/
abbrev Log := List String

/-- Sample handler: records the event type it was called with and succeeds. -/
def okHandler (tag : String) : Event → Log → GoError × Log :=
  fun e log => (none, log ++ [tag ++ " " ++ e.Type_])

/-- Sample handler: records the call and fails with the message `boom`. -/
def failingHandler : Event → Log → GoError × Log :=
  fun e log => (some "boom", log ++ ["failing " ++ e.Type_])

/-- Sample error callback: records the error it was given. -/
def recordErr : String → Log → Log :=
  fun err log => log ++ ["errFn " ++ err]

/-- Sample library routines: a payload decodes when it is non-empty (its first
byte picks the event type), the signature check accepts only the header
`good` under the secret `whsec`. -/
def sampleCaps : Capabilities where
  Unmarshal := fun payload =>
    match payload with
    | [] => .error "unexpected end of JSON input"
    | 1 :: _ => .ok ⟨"charge.succeeded", "d"⟩
    | 2 :: _ => .ok ⟨"charge.failed", "d"⟩
    | _ => .ok ⟨"customer.created", "d"⟩
  ConstructEvent := fun payload header secret =>
    if header = "good" ∧ secret = "whsec" then
      match payload with
      | 1 :: _ => .ok ⟨"charge.succeeded", "d"⟩
      | 2 :: _ => .ok ⟨"charge.failed", "d"⟩
      | _ => .ok ⟨"customer.created", "d"⟩
    else .error "webhook had no valid signature"

/-- Sample manager without verification: `charge.succeeded` has a succeeding
handler, `charge.failed` a failing one. -/
def sampleManager : Manager Log :=
  ((New []).Handle "charge.succeeded" (some (okHandler "a"))).Handle "charge.failed"
    (some failingHandler)

/-- Sample manager built as `New(WithVerify("whsec"))`, with the same
handlers as `sampleManager`. -/
def verifyingManager : Manager Log :=
  match WithVerify "whsec" with
  | .ok o =>
    ((New [o]).Handle "charge.succeeded" (some (okHandler "a"))).Handle "charge.failed"
      (some failingHandler)
  | .error _ => New []

/-- Sample option list: what `WithVerify` returns for two secrets. -/
def sampleOptions : List (ManagerOption Log) :=
  [fun m => { m with verify := true, endpointSecret := "old" },
   fun m => { m with verify := true, endpointSecret := "whsec" }]

/-- Sample response writer: nothing sent yet, no write scheduled to fail. -/
def freshWriter : ResponseWriter := ⟨none, "", []⟩

/-- Sample request with the given body bytes and signature header. -/
def sampleRequest (body : Bytes) (sig : String) : Request :=
  ⟨.ok body, fun k => if k = "Stripe-Signature" then sig else ""⟩

/-! ## Properties of event processing -/

/-- The decode step of `ProcessEvent` succeeds with event `e`: the signature
check does when verification is on, the plain decode does when it is off. -/
def Decodes {σ : Type} (x : Capabilities) (m : Manager σ) (payload : Bytes)
    (signatureHeader : String) (e : Event) : Prop :=
  (m.verify = true ∧ x.ConstructEvent payload signatureHeader m.endpointSecret = .ok e) ∨
  (m.verify = false ∧ x.Unmarshal payload = .ok e)

instance {σ : Type} (x : Capabilities) (m : Manager σ) (payload : Bytes)
    (signatureHeader : String) (e : Event) : Decidable (Decodes x m payload signatureHeader e) :=
  inferInstanceAs (Decidable (_ ∨ _))

/-- After a successful decode, `ProcessEvent` is decided by the map entry of
the event type alone. -/
theorem ProcessEvent_of_decodes {σ : Type} (x : Capabilities) (m : Manager σ) (payload : Bytes)
    (signatureHeader : String) (s : σ) (e : Event) (hdec : Decodes x m payload signatureHeader e) :
    m.ProcessEvent x payload signatureHeader s =
      match mapIndex m.handlers e.Type_ with
      | none => ⟨.returned none, s, []⟩
      | some none => ⟨.panicked nilFuncPanic, s, []⟩
      | some (some fn) =>
        match fn e s with
        | (some err, s1) => ⟨.returned (some ("error handling event: " ++ err)), s1, [⟨fn, e⟩]⟩
        | (none, s1) => ⟨.returned none, s1, [⟨fn, e⟩]⟩ := by
  rcases hdec with ⟨hv, hc⟩ | ⟨hv, hu⟩
  · simp [Manager.ProcessEvent, hv, hc]
  · simp [Manager.ProcessEvent, hv, hu]

/-- After a successful decode of an event whose type has the non-nil handler
`h`, `ProcessEvent` runs `h` on the event once and maps its result. -/
theorem ProcessEvent_of_registered {σ : Type} (x : Capabilities) (m : Manager σ) (payload : Bytes)
    (signatureHeader : String) (s : σ) (e : Event) (h : Event → σ → GoError × σ)
    (hdec : Decodes x m payload signatureHeader e)
    (hreg : mapIndex m.handlers e.Type_ = some (some h)) :
    m.ProcessEvent x payload signatureHeader s =
      ⟨match (h e s).1 with
        | some err => .returned (some ("error handling event: " ++ err))
        | none => .returned none,
       (h e s).2, [⟨h, e⟩]⟩ := by
  rw [ProcessEvent_of_decodes x m payload signatureHeader s e hdec, hreg]
  rcases hres : h e s with ⟨_ | err, s1⟩ <;> simp [hres]

/-- Reading the key just written by `Handle` finds the written func. -/
theorem mapIndex_Handle_same {σ : Type} (m : Manager σ) (t : EventType) (fn : HandlerFunc σ) :
    mapIndex (m.Handle t fn).handlers t = some fn := by
  unfold Manager.Handle
  cases m.handlers <;> simp [mapIndex]

/-- Reading another key after `Handle` finds what was there before. -/
theorem mapIndex_Handle_other {σ : Type} (m : Manager σ) (t k : EventType) (fn : HandlerFunc σ)
    (hk : k ≠ t) : mapIndex (m.Handle t fn).handlers k = mapIndex m.handlers k := by
  unfold Manager.Handle
  cases m.handlers <;> simp [mapIndex, Function.update, hk]

/-- Registration leaves the verification settings alone. -/
theorem Handle_verify {σ : Type} (m : Manager σ) (t : EventType) (fn : HandlerFunc σ) :
    (m.Handle t fn).verify = m.verify ∧ (m.Handle t fn).endpointSecret = m.endpointSecret := by
  unfold Manager.Handle
  cases m.handlers <;> simp

/-- Registration does not change which payloads decode. -/
theorem Decodes_Handle {σ : Type} (x : Capabilities) (m : Manager σ) (t : EventType)
    (fn : HandlerFunc σ) (payload : Bytes) (signatureHeader : String) (e : Event) :
    Decodes x (m.Handle t fn) payload signatureHeader e ↔ Decodes x m payload signatureHeader e := by
  unfold Decodes
  rw [(Handle_verify m t fn).1, (Handle_verify m t fn).2]

/-- An option returned by `WithVerify` comes from a non-empty secret and
switches verification on with that secret. -/
theorem WithVerify_ok {σ : Type} (secret : String) (o : ManagerOption σ)
    (h : WithVerify secret = .ok o) :
    secret ≠ "" ∧ o = fun m => { m with verify := true, endpointSecret := secret } := by
  unfold WithVerify at h
  by_cases hs : secret = ""
  · simp [hs] at h
  · simp only [hs, if_false, Except.ok.injEq] at h
    exact ⟨hs, h.symm⟩

/-- Applying options returned by `WithVerify` keeps "verification on implies
a non-empty secret" and switches verification on when there is an option. -/
theorem foldl_WithVerify {σ : Type} (options : List (ManagerOption σ))
    (hopts : ∀ o ∈ options, ∃ secret, WithVerify secret = .ok o) (m0 : Manager σ)
    (h0 : m0.verify = true → m0.endpointSecret ≠ "") :
    ((options.foldl (fun m option => option m) m0).verify = true →
      (options.foldl (fun m option => option m) m0).endpointSecret ≠ "") ∧
    (options ≠ [] → (options.foldl (fun m option => option m) m0).verify = true) := by
  induction options generalizing m0 with
  | nil => exact ⟨h0, fun h => absurd rfl h⟩
  | cons o rest ih =>
    obtain ⟨secret, hsec⟩ := hopts o (List.mem_cons_self o rest)
    obtain ⟨hne, ho⟩ := WithVerify_ok secret o hsec
    have hrest : ∀ o1 ∈ rest, ∃ secret, WithVerify secret = .ok o1 :=
      fun o1 h1 => hopts o1 (List.mem_cons_of_mem o h1)
    have hstep : (o m0).verify = true ∧ (o m0).endpointSecret ≠ "" := by
      subst ho
      exact ⟨rfl, hne⟩
    have key := ih hrest (o m0) (fun _ => hstep.2)
    refine ⟨key.1, fun _ => ?_⟩
    by_cases hr : rest = []
    · subst hr
      exact hstep.1
    · exact key.2 hr

/-- The callback statement leaves the response writer alone. -/
theorem callErrFn_w {σ : Type} (errFn : Option (String → σ → σ)) (err : String)
    (w : ResponseWriter) (stderr : String) (s : σ) (calls : List (Call σ)) :
    (callErrFn errFn err w stderr s calls).w = w := by
  cases errFn <;> rfl

/-- Effect of `Write` on the fields of the writer: the status becomes 200
unless one was sent before, the data is appended when the write succeeds, and
one scheduled result is used up. -/
theorem Write_fields (w : ResponseWriter) (data : String) :
    (w.Write data).2 = nextWrite w.failures ∧
      (w.Write data).1.status = some (w.status.getD 200) ∧
      (w.Write data).1.body = w.body ++ (if nextWrite w.failures = none then data else "") ∧
      (w.Write data).1.failures = w.failures.tail := by
  obtain ⟨st, body, failures⟩ := w
  rcases st with _ | c <;> rcases failures with _ | ⟨_ | werr, rest⟩ <;>
    simp [ResponseWriter.Write, ResponseWriter.WriteHeader, StatusOK, nextWrite]

/-- Effect of `httpErrorHandler` on the fields of the writer: the status
becomes 500 unless one was sent before, and the error text is appended when
the write succeeds. -/
theorem httpErrorHandler_fields (w : ResponseWriter) (err : String) :
    (httpErrorHandler w err).1.status = some (w.status.getD 500) ∧
      (httpErrorHandler w err).1.body =
        w.body ++ (if nextWrite w.failures = none then err else "") ∧
      (httpErrorHandler w err).1.failures = w.failures.tail := by
  obtain ⟨st, body, failures⟩ := w
  rcases st with _ | c <;> rcases failures with _ | ⟨_ | werr, rest⟩ <;>
    simp [httpErrorHandler, ResponseWriter.Write, ResponseWriter.WriteHeader, StatusOK,
      StatusInternalServerError, nextWrite]

/-- A callback that is supplied is replaced by the do-nothing func before the
request handler is built, so the request handler does not depend on it. -/
theorem HttpHandler_supplied_callback_irrelevant {σ : Type} (x : Capabilities) (m : Manager σ)
    (cb : String → σ → σ) :
    m.HttpHandler x (some cb) = m.HttpHandler x (some (fun _ s => s)) := rfl

/-! ## Claims -/

/-- C1: with verification enabled, when the signature check fails for the
payload, the header and the endpoint secret, `ProcessEvent` returns the error
"error verifying webhook signature: " followed by the cause, and no handler is
invoked, whatever the payload and whatever handlers are registered. -/
theorem ProcessEvent_verification_failure {σ : Type} (x : Capabilities) (m : Manager σ)
    (payload : Bytes) (signatureHeader : String) (s : σ) (cause : String)
    (hverify : m.verify = true)
    (hfail : x.ConstructEvent payload signatureHeader m.endpointSecret = .error cause) :
    (m.ProcessEvent x payload signatureHeader s).ret =
        .returned (some ("error verifying webhook signature: " ++ cause)) ∧
      (m.ProcessEvent x payload signatureHeader s).calls = [] ∧
      (m.ProcessEvent x payload signatureHeader s).world = s := by
  simp [Manager.ProcessEvent, hverify, hfail]

/-- Witness of C1: a verifying manager rejects a bad signature on a payload
whose event type has a registered handler. -/
theorem ProcessEvent_verification_failure_witness :
    verifyingManager.verify = true ∧
      sampleCaps.ConstructEvent [1] "bad" verifyingManager.endpointSecret =
        .error "webhook had no valid signature" ∧
      sampleCaps.Unmarshal [1] = .ok ⟨"charge.succeeded", "d"⟩ ∧
      mapIndex verifyingManager.handlers "charge.succeeded" = some (some (okHandler "a")) ∧
      (verifyingManager.ProcessEvent sampleCaps [1] "bad" []).ret =
        .returned (some ("error verifying webhook signature: " ++
          "webhook had no valid signature")) ∧
      (verifyingManager.ProcessEvent sampleCaps [1] "bad" []).calls = [] ∧
      (verifyingManager.ProcessEvent sampleCaps [1] "bad" []).world = [] :=
  ⟨rfl, by decide, rfl, rfl,
    ProcessEvent_verification_failure sampleCaps verifyingManager [1] "bad" []
      "webhook had no valid signature" rfl (by decide)⟩

/-- C2: when the non-nil handler `h` is the one registered for type `t` and
the decode step (signature check with verification on, plain decode with it
off) yields an event `e` of type `t`, `ProcessEvent` invokes `h` exactly once,
on `e`, and invokes no other handler: the call log is the single call of `h`
on `e` and the world state is the one that call leaves. -/
theorem ProcessEvent_invokes_registered_once {σ : Type} (x : Capabilities) (m : Manager σ)
    (payload : Bytes) (signatureHeader : String) (s : σ) (t : EventType)
    (h : Event → σ → GoError × σ) (e : Event)
    (hreg : mapIndex m.handlers t = some (some h))
    (hdec : Decodes x m payload signatureHeader e) (ht : e.Type_ = t) :
    (m.ProcessEvent x payload signatureHeader s).calls = [⟨h, e⟩] ∧
      (m.ProcessEvent x payload signatureHeader s).world = (h e s).2 := by
  subst ht
  rw [ProcessEvent_of_registered x m payload signatureHeader s e h hdec hreg]
  exact ⟨rfl, rfl⟩

/-- Witness of C2: the sample manager, two handlers registered, runs only the
handler of `charge.succeeded` on a `charge.succeeded` event. -/
theorem ProcessEvent_invokes_registered_once_witness :
    mapIndex sampleManager.handlers "charge.succeeded" = some (some (okHandler "a")) ∧
      Decodes sampleCaps sampleManager [1] "" ⟨"charge.succeeded", "d"⟩ ∧
      (sampleManager.ProcessEvent sampleCaps [1] "" []).calls =
        [⟨okHandler "a", ⟨"charge.succeeded", "d"⟩⟩] ∧
      (sampleManager.ProcessEvent sampleCaps [1] "" []).world =
        (okHandler "a" ⟨"charge.succeeded", "d"⟩ []).2 :=
  ⟨rfl, by decide,
    ProcessEvent_invokes_registered_once sampleCaps sampleManager [1] "" [] "charge.succeeded"
      (okHandler "a") ⟨"charge.succeeded", "d"⟩ rfl (by decide) rfl⟩

/-- C3: when the decoded (or verified) event has a type with no registered
handler, `ProcessEvent` returns the nil error and invokes no handler. -/
theorem ProcessEvent_unregistered_type {σ : Type} (x : Capabilities) (m : Manager σ)
    (payload : Bytes) (signatureHeader : String) (s : σ) (e : Event)
    (hdec : Decodes x m payload signatureHeader e)
    (hnone : mapIndex m.handlers e.Type_ = none) :
    (m.ProcessEvent x payload signatureHeader s).ret = .returned none ∧
      (m.ProcessEvent x payload signatureHeader s).calls = [] ∧
      (m.ProcessEvent x payload signatureHeader s).world = s := by
  rw [ProcessEvent_of_decodes x m payload signatureHeader s e hdec, hnone]
  exact ⟨rfl, rfl, rfl⟩

/-- Witness of C3: the sample manager has no handler for `customer.created`. -/
theorem ProcessEvent_unregistered_type_witness :
    Decodes sampleCaps sampleManager [3] "" ⟨"customer.created", "d"⟩ ∧
      mapIndex sampleManager.handlers "customer.created" = none ∧
      (sampleManager.ProcessEvent sampleCaps [3] "" []).ret = .returned none ∧
      (sampleManager.ProcessEvent sampleCaps [3] "" []).calls = [] ∧
      (sampleManager.ProcessEvent sampleCaps [3] "" []).world = [] :=
  ⟨by decide, rfl,
    ProcessEvent_unregistered_type sampleCaps sampleManager [3] "" []
      ⟨"customer.created", "d"⟩ (by decide) rfl⟩

/-- C4: registering `h1` and then `h2` for the same type leaves the same
manager (hence the same handler mapping) as registering `h2` alone, and
processing an event `e` of that type then runs `h2` on `e`, once, and nothing
else: the call log is the single call of `h2`, the world state is the one
`h2` leaves, and the returned error is the one `h2` returns (wrapped), so no
effect and no result of `h1` is left. -/
theorem Handle_last_write_wins {σ : Type} (x : Capabilities) (m : Manager σ) (t : EventType)
    (h1 : HandlerFunc σ) (h2 : Event → σ → GoError × σ) (payload : Bytes)
    (signatureHeader : String) (s : σ) (e : Event)
    (hdec : Decodes x m payload signatureHeader e) (ht : e.Type_ = t) :
    (∀ g : HandlerFunc σ, (m.Handle t h1).Handle t g = m.Handle t g) ∧
      (((m.Handle t h1).Handle t (some h2)).ProcessEvent x payload signatureHeader s).calls =
        [⟨h2, e⟩] ∧
      (((m.Handle t h1).Handle t (some h2)).ProcessEvent x payload signatureHeader s).world =
        (h2 e s).2 ∧
      (((m.Handle t h1).Handle t (some h2)).ProcessEvent x payload signatureHeader s).ret =
        (match (h2 e s).1 with
          | some err => .returned (some ("error handling event: " ++ err))
          | none => .returned none) ∧
      ((m.Handle t h1).Handle t (some h2)).ProcessEvent x payload signatureHeader s =
        (m.Handle t (some h2)).ProcessEvent x payload signatureHeader s := by
  have hmap : ∀ g : HandlerFunc σ, (m.Handle t h1).Handle t g = m.Handle t g := by
    intro g
    unfold Manager.Handle
    cases m.handlers <;> simp [Function.update_idem]
  refine ⟨hmap, ?_, ?_, ?_, by rw [hmap]⟩ <;>
  · subst ht
    rw [hmap, ProcessEvent_of_registered x _ payload signatureHeader s e h2
      ((Decodes_Handle x m e.Type_ (some h2) payload signatureHeader e).2 hdec)
      (mapIndex_Handle_same m e.Type_ (some h2))]

/-- Witness of C4: on the sample manager, re-registering `charge.failed`
replaces the failing handler: the new handler leaves its log entry and its
nil result, the failing one leaves nothing. -/
theorem Handle_last_write_wins_witness :
    Decodes sampleCaps sampleManager [2] "" ⟨"charge.failed", "d"⟩ ∧
      (∀ g : HandlerFunc Log,
        ((sampleManager.Handle "charge.failed" (some failingHandler)).Handle "charge.failed" g) =
          sampleManager.Handle "charge.failed" g) ∧
      ((((sampleManager.Handle "charge.failed" (some failingHandler)).Handle "charge.failed"
          (some (okHandler "b"))).ProcessEvent sampleCaps [2] "" []).calls =
        [⟨okHandler "b", ⟨"charge.failed", "d"⟩⟩]) ∧
      ((((sampleManager.Handle "charge.failed" (some failingHandler)).Handle "charge.failed"
          (some (okHandler "b"))).ProcessEvent sampleCaps [2] "" []).world =
        ["b charge.failed"]) ∧
      ((((sampleManager.Handle "charge.failed" (some failingHandler)).Handle "charge.failed"
          (some (okHandler "b"))).ProcessEvent sampleCaps [2] "" []).ret =
        .returned none) ∧
      ((sampleManager.Handle "charge.failed" (some failingHandler)).Handle "charge.failed"
          (some (okHandler "b"))).ProcessEvent sampleCaps [2] "" [] =
        (sampleManager.Handle "charge.failed" (some (okHandler "b"))).ProcessEvent
          sampleCaps [2] "" [] :=
  ⟨by decide,
    Handle_last_write_wins sampleCaps sampleManager "charge.failed" (some failingHandler)
      (okHandler "b") [2] "" [] ⟨"charge.failed", "d"⟩ (by decide) rfl⟩

/-- C5: with verification disabled, when the payload does not decode,
`ProcessEvent` returns the error "error unmarshalling event: " followed by the
cause and invokes no handler, whatever handlers are registered. -/
theorem ProcessEvent_decode_failure {σ : Type} (x : Capabilities) (m : Manager σ)
    (payload : Bytes) (signatureHeader : String) (s : σ) (cause : String)
    (hverify : m.verify = false) (hfail : x.Unmarshal payload = .error cause) :
    (m.ProcessEvent x payload signatureHeader s).ret =
        .returned (some ("error unmarshalling event: " ++ cause)) ∧
      (m.ProcessEvent x payload signatureHeader s).calls = [] ∧
      (m.ProcessEvent x payload signatureHeader s).world = s := by
  simp [Manager.ProcessEvent, hverify, hfail]

/-- Witness of C5: the empty payload does not decode. -/
theorem ProcessEvent_decode_failure_witness :
    sampleManager.verify = false ∧
      sampleCaps.Unmarshal [] = .error "unexpected end of JSON input" ∧
      (sampleManager.ProcessEvent sampleCaps [] "" []).ret =
        .returned (some ("error unmarshalling event: " ++ "unexpected end of JSON input")) ∧
      (sampleManager.ProcessEvent sampleCaps [] "" []).calls = [] ∧
      (sampleManager.ProcessEvent sampleCaps [] "" []).world = [] :=
  ⟨rfl, rfl,
    ProcessEvent_decode_failure sampleCaps sampleManager [] "" []
      "unexpected end of JSON input" rfl rfl⟩

/-- C6: when the handler registered for the event type returns the error
`err`, `ProcessEvent` returns the error "error handling event: " followed by
`err`; when it returns nil, `ProcessEvent` returns nil; either way that
handler is the only one invoked. -/
theorem ProcessEvent_handler_result {σ : Type} (x : Capabilities) (m : Manager σ)
    (payload : Bytes) (signatureHeader : String) (s : σ) (e : Event)
    (h : Event → σ → GoError × σ)
    (hdec : Decodes x m payload signatureHeader e)
    (hreg : mapIndex m.handlers e.Type_ = some (some h)) :
    (m.ProcessEvent x payload signatureHeader s).ret =
        (match (h e s).1 with
          | some err => .returned (some ("error handling event: " ++ err))
          | none => .returned none) ∧
      (m.ProcessEvent x payload signatureHeader s).calls = [⟨h, e⟩] := by
  rw [ProcessEvent_of_registered x m payload signatureHeader s e h hdec hreg]
  exact ⟨rfl, rfl⟩

/-- Witness of C6: the failing sample handler makes `ProcessEvent` fail with
the wrapped message. -/
theorem ProcessEvent_handler_result_witness :
    Decodes sampleCaps sampleManager [2] "" ⟨"charge.failed", "d"⟩ ∧
      mapIndex sampleManager.handlers "charge.failed" = some (some failingHandler) ∧
      (failingHandler ⟨"charge.failed", "d"⟩ []).1 = some "boom" ∧
      (sampleManager.ProcessEvent sampleCaps [2] "" []).ret =
        .returned (some "error handling event: boom") ∧
      (sampleManager.ProcessEvent sampleCaps [2] "" []).calls =
        [⟨failingHandler, ⟨"charge.failed", "d"⟩⟩] :=
  ⟨by decide, rfl, rfl,
    ProcessEvent_handler_result sampleCaps sampleManager [2] "" [] ⟨"charge.failed", "d"⟩
      failingHandler (by decide) rfl⟩

/-- C7 (defect in the code): a supplied error callback is never invoked.  On
the sample manager a `charge.failed` request fails with status 500, yet the
recording callback leaves no entry in the log, where the claim asks for one
call with the error of `ProcessEvent`. -/
theorem HttpHandler_supplied_callback_not_invoked :
    (sampleManager.ProcessEvent sampleCaps [2] "" []).ret =
        .returned (some "error handling event: boom") ∧
      (sampleManager.HttpHandler sampleCaps (some recordErr) freshWriter
        (sampleRequest [2] "") []).w.status = some 500 ∧
      (sampleManager.HttpHandler sampleCaps (some recordErr) freshWriter
        (sampleRequest [2] "") []).world = ["failing charge.failed"] ∧
      (sampleManager.HttpHandler sampleCaps (some recordErr) freshWriter
        (sampleRequest [2] "") []).world ≠
          recordErr "error handling event: boom" ["failing charge.failed"] ∧
      (sampleManager.HttpHandler sampleCaps (some recordErr) freshWriter
        ⟨.error "unexpected EOF", fun _ => ""⟩ []).world = [] := by
  decide

/-- C8 (defect in the code): with a nil error callback a failed request makes
the request handler call the nil func and panic, both when `ProcessEvent`
returns an error and when the body cannot be read. -/
theorem HttpHandler_nil_callback_panics :
    (sampleManager.HttpHandler sampleCaps none freshWriter (sampleRequest [] "") []).panic =
        some nilFuncPanic ∧
      (sampleManager.HttpHandler sampleCaps none freshWriter
        ⟨.error "unexpected EOF", fun _ => ""⟩ []).panic = some nilFuncPanic ∧
      (sampleManager.HttpHandler sampleCaps none freshWriter (sampleRequest [1] "") []).panic =
        none := by
  decide

/-- C9 as stated fails, at three requests whose body is read.  When
`ProcessEvent` returns an error, the body of the 500 response is not the
message of that error.  When `ProcessEvent` returns nil and the write of "OK"
fails, the response has status 200 and the text of the write error as body.
When a status was sent on the writer before, that status stays and "OK" is
appended to the body sent before. -/
theorem HttpHandler_body_is_not_bare_error :
    ((sampleRequest [] "").Body = .ok [] ∧
      (sampleManager.ProcessEvent sampleCaps []
        ((sampleRequest [] "").Header "Stripe-Signature") []).ret =
          .returned (some "error unmarshalling event: unexpected end of JSON input") ∧
      (sampleManager.HttpHandler sampleCaps (some recordErr) freshWriter
        (sampleRequest [] "") []).w.status = some 500 ∧
      (sampleManager.HttpHandler sampleCaps (some recordErr) freshWriter
        (sampleRequest [] "") []).w.body ≠
          "error unmarshalling event: unexpected end of JSON input") ∧
    ((sampleRequest [1] "").Body = .ok [1] ∧
      (sampleManager.ProcessEvent sampleCaps [1]
        ((sampleRequest [1] "").Header "Stripe-Signature") []).ret = .returned none ∧
      (sampleManager.HttpHandler sampleCaps (some recordErr) ⟨none, "", [some "broken pipe"]⟩
        (sampleRequest [1] "") []).w.status = some 200 ∧
      (sampleManager.HttpHandler sampleCaps (some recordErr) ⟨none, "", [some "broken pipe"]⟩
        (sampleRequest [1] "") []).w.body = "error writing response: broken pipe") ∧
    ((sampleManager.HttpHandler sampleCaps (some recordErr) ⟨some 404, "not found", []⟩
        (sampleRequest [1] "") []).w.status = some 404 ∧
      (sampleManager.HttpHandler sampleCaps (some recordErr) ⟨some 404, "not found", []⟩
        (sampleRequest [1] "") []).w.body = "not foundOK") := by
  decide

/-- C9 amended: for a request whose body is read, the request handler calls
`ProcessEvent` on the body and the `Stripe-Signature` header, and the handler
calls made are those of that call.
When `ProcessEvent` returns nil and the write of "OK" succeeds, the response
has status 200 (the status sent before, if there was one) and "OK" appended to
the body, the world state is the one `ProcessEvent` left, and the request
handler does not panic, with or without a callback.
When `ProcessEvent` returns nil, the write of "OK" fails with `werr` and a
callback was supplied, the status is as before, the body gets
"error writing response: " followed by `werr` (nothing when that write fails
too), and the request handler does not panic.
When `ProcessEvent` returns an error `err` and a callback was supplied, the
response has status 500 (the status sent before, if there was one), the body
gets "error processing event: " followed by `err` (nothing when the write
fails), and the request handler does not panic.
In the last two cases the world state is the one `ProcessEvent` left, with or
without one call of the callback on the error.  Nothing is stated about a
failed request without a callback. -/
theorem HttpHandler_response {σ : Type} (x : Capabilities) (m : Manager σ)
    (errFn : Option (String → σ → σ)) (w : ResponseWriter) (r : Request) (s : σ)
    (payload : Bytes) (hread : r.Body = .ok payload) :
    (m.HttpHandler x errFn w r s).calls =
        (m.ProcessEvent x payload (r.Header "Stripe-Signature") s).calls ∧
    ((m.ProcessEvent x payload (r.Header "Stripe-Signature") s).ret = .returned none →
      nextWrite w.failures = none →
      (m.HttpHandler x errFn w r s).w.status = some (w.status.getD 200) ∧
        (m.HttpHandler x errFn w r s).w.body = w.body ++ "OK" ∧
        (m.HttpHandler x errFn w r s).world =
          (m.ProcessEvent x payload (r.Header "Stripe-Signature") s).world ∧
        (m.HttpHandler x errFn w r s).panic = none) ∧
    (∀ (werr : String) (cb : String → σ → σ),
      (m.ProcessEvent x payload (r.Header "Stripe-Signature") s).ret = .returned none →
      nextWrite w.failures = some werr → errFn = some cb →
      (m.HttpHandler x errFn w r s).w.status = some (w.status.getD 200) ∧
        (m.HttpHandler x errFn w r s).w.body =
          w.body ++ (if nextWrite w.failures.tail = none
            then "error writing response: " ++ werr else "") ∧
        ((m.HttpHandler x errFn w r s).world =
            (m.ProcessEvent x payload (r.Header "Stripe-Signature") s).world ∨
          (m.HttpHandler x errFn w r s).world =
            cb werr (m.ProcessEvent x payload (r.Header "Stripe-Signature") s).world) ∧
        (m.HttpHandler x errFn w r s).panic = none) ∧
    (∀ (err : String) (cb : String → σ → σ),
      (m.ProcessEvent x payload (r.Header "Stripe-Signature") s).ret = .returned (some err) →
      errFn = some cb →
      (m.HttpHandler x errFn w r s).w.status = some (w.status.getD 500) ∧
        (m.HttpHandler x errFn w r s).w.body =
          w.body ++ (if nextWrite w.failures = none
            then "error processing event: " ++ err else "") ∧
        ((m.HttpHandler x errFn w r s).world =
            (m.ProcessEvent x payload (r.Header "Stripe-Signature") s).world ∨
          (m.HttpHandler x errFn w r s).world =
            cb err (m.ProcessEvent x payload (r.Header "Stripe-Signature") s).world) ∧
        (m.HttpHandler x errFn w r s).panic = none) := by
  unfold Manager.HttpHandler
  simp only [hread]
  rcases hrun : m.ProcessEvent x payload (r.Header "Stripe-Signature") s with
    ⟨(_ | err) | msg, s1, calls⟩
  · have hW := Write_fields (w.WriteHeader StatusOK) "OK"
    have hst : ((w.WriteHeader StatusOK).status.getD 200) = w.status.getD 200 := by
      cases hs : w.status <;> simp [ResponseWriter.WriteHeader, hs, StatusOK]
    have hbd : (w.WriteHeader StatusOK).body = w.body := by
      cases hs : w.status <;> simp [ResponseWriter.WriteHeader, hs]
    have hfl : (w.WriteHeader StatusOK).failures = w.failures := by
      cases hs : w.status <;> simp [ResponseWriter.WriteHeader, hs]
    rw [hst, hbd, hfl] at hW
    obtain ⟨hW2, hWs, hWb, hWf⟩ := hW
    rcases hwr : (w.WriteHeader StatusOK).Write "OK" with ⟨w2, _ | werr1⟩
    · rw [hwr] at hW2 hWs hWb hWf
      simp only at hW2 hWs hWb hWf
      refine ⟨by simp, fun _ hnw => ?_, fun werr cb _ hnw _ => ?_, fun err cb h _ => ?_⟩
      · simp [hWs, hWb, hnw]
      · rw [hnw] at hW2
        simp at hW2
      · simp at h
    · rw [hwr] at hW2 hWs hWb hWf
      simp only at hW2 hWs hWb hWf
      have hE := httpErrorHandler_fields w2 ("error writing response: " ++ werr1)
      refine ⟨by cases errFn <;> simp [callErrFn], fun _ hnw => ?_,
        fun werr cb _ hnw hcb => ?_, fun err cb h _ => ?_⟩
      · rw [hnw] at hW2
        simp at hW2
      · rw [hnw] at hW2
        simp only [Option.some.injEq] at hW2
        subst hW2 hcb
        simp [callErrFn, hE.1, hE.2.1, hWs, hWb, hWf, hnw]
      · simp at h
  · have hE := httpErrorHandler_fields w ("error processing event: " ++ err)
    refine ⟨by cases errFn <;> simp [callErrFn], fun h _ => by simp at h,
      fun werr cb h _ _ => by simp at h, fun err1 cb h hcb => ?_⟩
    simp only [Ret.returned.injEq, Option.some.injEq] at h
    subst h hcb
    simp [callErrFn, hE.1, hE.2.1]
  · exact ⟨by simp, fun h _ => by simp at h, fun werr cb h _ _ => by simp at h,
      fun err cb h _ => by simp at h⟩

/-- Witness of C9 amended: a failing `charge.failed` request on the sample
manager with the recording callback supplied, served without a panic. -/
theorem HttpHandler_response_witness :
    (sampleRequest [2] "").Body = .ok [2] ∧
      (sampleManager.ProcessEvent sampleCaps [2]
        ((sampleRequest [2] "").Header "Stripe-Signature") []).ret =
          .returned (some "error handling event: boom") ∧
      (sampleManager.HttpHandler sampleCaps (some recordErr) freshWriter
        (sampleRequest [2] "") []).w.status = some 500 ∧
      (sampleManager.HttpHandler sampleCaps (some recordErr) freshWriter
        (sampleRequest [2] "") []).w.body =
          "error processing event: error handling event: boom" ∧
      (sampleManager.HttpHandler sampleCaps (some recordErr) freshWriter
        (sampleRequest [2] "") []).calls = [⟨failingHandler, ⟨"charge.failed", "d"⟩⟩] ∧
      (sampleManager.HttpHandler sampleCaps (some recordErr) freshWriter
        (sampleRequest [2] "") []).panic = none :=
  have h := HttpHandler_response sampleCaps sampleManager (some recordErr) freshWriter
    (sampleRequest [2] "") [] [2] rfl
  have h3 := h.2.2.2 "error handling event: boom" recordErr (by decide) rfl
  ⟨rfl, by decide, h3.1, h3.2.1, h.1, h3.2.2.2⟩

/-- C10: `WithVerify ""` panics, so it returns no option; a manager built by
`New` from options that `WithVerify` returned never has verification on with
an empty secret, and has verification on as soon as there is such an option;
for a non-empty secret `secret`, `New(WithVerify(secret))` is a manager with
verification on and endpoint secret `secret`. -/
theorem WithVerify_empty_secret_fails_fast {σ : Type} (secret : String)
    (options : List (ManagerOption σ)) (hsecret : secret ≠ "")
    (hopts : ∀ o ∈ options, ∃ sec, WithVerify sec = .ok o) :
    (WithVerify "" : Except String (ManagerOption σ)) =
        .error "endpointSecret cannot be empty in WithVerify" ∧
      ((New options).verify = true → (New options).endpointSecret ≠ "") ∧
      (options ≠ [] → (New options).verify = true) ∧
      ∃ o : ManagerOption σ, WithVerify secret = .ok o ∧ (New [o]).verify = true ∧
        (New [o]).endpointSecret = secret ∧ (New [o]).handlers = makeMap σ := by
  have key := foldl_WithVerify options hopts
    { verify := false, endpointSecret := "", handlers := makeMap σ } (by simp)
  refine ⟨rfl, key.1, key.2, ?_⟩
  refine ⟨fun m => { m with verify := true, endpointSecret := secret }, ?_, rfl, rfl, rfl⟩
  simp [WithVerify, hsecret]

/-- Witness of C10: the secret `whsec` and the sample option list. -/
theorem WithVerify_empty_secret_fails_fast_witness :
    ("whsec" ≠ "") ∧
      (∀ o ∈ sampleOptions, ∃ sec, WithVerify sec = .ok o) ∧
      ((WithVerify "" : Except String (ManagerOption Log)) =
        .error "endpointSecret cannot be empty in WithVerify") ∧
      ((New sampleOptions).verify = true → (New sampleOptions).endpointSecret ≠ "") ∧
      (sampleOptions ≠ [] → (New sampleOptions).verify = true) ∧
      ∃ o : ManagerOption Log, WithVerify "whsec" = .ok o ∧ (New [o]).verify = true ∧
        (New [o]).endpointSecret = "whsec" ∧ (New [o]).handlers = makeMap Log :=
  have hopts : ∀ o ∈ sampleOptions, ∃ sec, WithVerify sec = .ok o := by
    intro o ho
    simp only [sampleOptions, List.mem_cons, List.mem_singleton, List.not_mem_nil,
      or_false] at ho
    rcases ho with ho | ho
    · exact ⟨"old", by rw [ho]; rfl⟩
    · exact ⟨"whsec", by rw [ho]; rfl⟩
  ⟨by decide, hopts,
    WithVerify_empty_secret_fails_fast "whsec" sampleOptions (by decide) hopts⟩

end Stripehooks
